import Mathlib

/-!
Verification development for the redis-state-management repository.

The model is a shallow embedding of the TypeScript sources:

* `src/queues/controller.ts` (`RedisQueuesController`): a Redis list is
  modelled as a Lean `List String` whose head is the Redis LEFT end, so
  `LPUSH` conses at the head and `LMOVE src dst RIGHT LEFT` takes the last
  element of `src` and conses it onto `dst`.  The whole keyspace is an
  association list from full key strings to values.
* `src/storage/processor.ts` (`RedisStorageProcessor.processRedisStorageMessage`):
  the sequence of backend commands issued by one message application is
  recorded as a trace of `RedisOp` values in execution order; every command
  is awaited in the source, so trace order is completion (durability) order.
* `src/storage/serializer.ts` delegates to the external `deep-diff-patcher`
  package (not part of this repository), as does the structural diff
  (`compare`).  Both are therefore kept abstract: the value codec is a
  `Serializer` parameter and the diff a `calcDiff` function parameter of the
  processor context.
* JSON-like runtime values are modelled by `JVal`; numbers are integers
  (no claim depends on non-integral numerics).
-/

/-- JSON-like value as manipulated by the TypeScript code. -/
inductive JVal where
  | null : JVal
  | jbool : Bool → JVal
  | num : Int → JVal
  | str : String → JVal
  | arr : List JVal → JVal
  | obj : List (String × JVal) → JVal

/-- Escape a character for a JSON string literal (quote and backslash only;
no claim exercises control characters). -/
def escChar (c : Char) : List Char :=
  if c = '"' then ['\\', '"']
  else if c = '\\' then ['\\', '\\']
  else [c]

def escapeJson (s : String) : String :=
  String.mk (s.data.flatMap escChar)

mutual

/-- Model of `JSON.stringify` on `JVal` (used by the processor only to test
whether the decoded value prints as the empty object). -/
def jsonStringify : JVal → String
  | JVal.null => "null"
  | JVal.jbool true => "true"
  | JVal.jbool false => "false"
  | JVal.num n => toString n
  | JVal.str s => "\"" ++ escapeJson s ++ "\""
  | JVal.arr xs => "[" ++ stringifyArr xs ++ "]"
  | JVal.obj fs => "\x7b" ++ stringifyObj fs ++ "\x7d"

def stringifyArr : List JVal → String
  | [] => ""
  | [x] => jsonStringify x
  | x :: y :: rest => jsonStringify x ++ "," ++ stringifyArr (y :: rest)

def stringifyObj : List (String × JVal) → String
  | [] => ""
  | [f] => "\"" ++ escapeJson f.fst ++ "\":" ++ jsonStringify f.snd
  | f :: g :: rest =>
      "\"" ++ escapeJson f.fst ++ "\":" ++ jsonStringify f.snd ++ "," ++ stringifyObj (g :: rest)

end

/-- Abstract value codec.  `serializer.ts` wraps the external
`deep-diff-patcher` object (de)serializer in `JSON.parse`/`JSON.stringify`;
the library is not part of this repository, so the codec is a parameter.
`unser` returns `none` where the TypeScript code would throw. -/
structure Serializer where
  ser : JVal → String
  unser : String → Option JVal

/-- Decoded `StateVersion<T>` record (`src/types.ts`). -/
structure SV where
  version : Int
  writtenAt : String
  value : JVal

/-- JSON shape of a `StateVersion` as built by the processor
(`{version, value, writtenAt}`, processor.ts lines 260-264). -/
def svToJVal (sv : SV) : JVal :=
  JVal.obj [("version", JVal.num sv.version), ("value", sv.value),
            ("writtenAt", JVal.str sv.writtenAt)]

def jGetField (fs : List (String × JVal)) (k : String) : Option JVal :=
  match fs.find? (fun p => p.fst == k) with
  | some p => some p.snd
  | none => none

/-- Read a decoded JSON value back as a `StateVersion` record.  The
TypeScript code merely casts (`as StateVersion<any>`) and then reads
`.version` and `.value`; a record without a numeric `version` would poison
the version arithmetic (`NaN`), which the spec classifies as a decode
failure, modelled here as `none`. -/
def svOfJVal : JVal → Option SV
  | JVal.obj fs =>
      match jGetField fs "version", jGetField fs "value", jGetField fs "writtenAt" with
      | some (JVal.num n), some v, some (JVal.str w) =>
          some { version := n, writtenAt := w, value := v }
      | _, _, _ => none
  | _ => none

/-- Decode a stored state record string. -/
def readSV (S : Serializer) (s : String) : Option SV :=
  (S.unser s).bind svOfJVal

/-- Decoded `DiffMessage` (`src/types.ts`). -/
structure DiffMsg where
  fromVersion : Int
  toVersion : Int
  writtenAt : String
  deltaPayload : JVal

/-- JSON shape of a `DiffMessage` as built by the processor
(processor.ts lines 270-275). -/
def diffToJVal (d : DiffMsg) : JVal :=
  JVal.obj [("fromVersion", JVal.num d.fromVersion), ("toVersion", JVal.num d.toVersion),
            ("writtenAt", JVal.str d.writtenAt), ("deltaPayload", d.deltaPayload)]

/-- Meta fields read by the five processor branches (`meta: any` in the
source; each branch reads only the fields relevant to its type). -/
structure MsgMeta where
  key : String
  value : String
  fieldName : String
  values : List String
deriving DecidableEq, Repr

/-- `GenericMessage` (`src/types.ts`). -/
structure GenericMessage where
  type : String
  occurredAt : String
  meta : MsgMeta
deriving DecidableEq, Repr

/-- `GenericMessageWithId`: the `id` is the exact serialized string sitting
in the processing list. -/
structure GenericMessageWithId where
  id : String
  message : GenericMessage
deriving DecidableEq, Repr

/-! ### Backend keyspace model -/

/-- Whole Redis keyspace: string keys, list keys, hash keys and set keys,
each an association list from the full (namespaced) key string. -/
structure RedisState where
  kv : List (String × String)
  lists : List (String × List String)
  hashes : List (String × List (String × String))
  sets : List (String × List String)
deriving DecidableEq, Repr

def kvGet (kv : List (String × String)) (k : String) : Option String :=
  match kv.find? (fun p => p.fst == k) with
  | some p => some p.snd
  | none => none

def kvSet (kv : List (String × String)) (k v : String) : List (String × String) :=
  (k, v) :: kv.filter (fun p => !(p.fst == k))

def kvDel (kv : List (String × String)) (k : String) : List (String × String) :=
  kv.filter (fun p => !(p.fst == k))

def lGet (ls : List (String × List String)) (k : String) : List String :=
  match ls.find? (fun p => p.fst == k) with
  | some p => p.snd
  | none => []

def lSet (ls : List (String × List String)) (k : String) (v : List String) :
    List (String × List String) :=
  (k, v) :: ls.filter (fun p => !(p.fst == k))

def hGet (hs : List (String × List (String × String))) (k : String) : List (String × String) :=
  match hs.find? (fun p => p.fst == k) with
  | some p => p.snd
  | none => []

def hSet (hs : List (String × List (String × String))) (k f v : String) :
    List (String × List (String × String)) :=
  (k, (f, v) :: (hGet hs k).filter (fun p => !(p.fst == f))) ::
    hs.filter (fun p => !(p.fst == k))

def sGet (ss : List (String × List String)) (k : String) : List String :=
  match ss.find? (fun p => p.fst == k) with
  | some p => p.snd
  | none => []

def sAdd (ss : List (String × List String)) (k : String) (vs : List String) :
    List (String × List String) :=
  (k, sGet ss k ++ vs.filter (fun v => !((sGet ss k).contains v))) ::
    ss.filter (fun p => !(p.fst == k))

def sRem (ss : List (String × List String)) (k : String) (vs : List String) :
    List (String × List String) :=
  (k, (sGet ss k).filter (fun v => !(vs.contains v))) ::
    ss.filter (fun p => !(p.fst == k))

/-- Backend mutation/publish command, recorded in execution order. -/
inductive RedisOp where
  | setOp (key val : String)
  | delOp (key : String)
  | publishOp (channel payload : String)
  | hmsetOp (key fieldName val : String)
  | saddOp (key : String) (vals : List String)
  | sremOp (key : String) (vals : List String)
  | lremOp (key : String) (count : Int) (val : String)
deriving DecidableEq, Repr

/-- Static context shared by the queue controller and the processor. -/
structure ProcCtx where
  ns : String
  incomingQueueId : String
  S : Serializer
  calcDiff : JVal → JVal → JVal

/-! ### Reliable queue (`src/queues/controller.ts`) -/

/-- The drain loop of `popNextMessage` (controller.ts lines 54-63): while
the processing list is non-empty, `LMOVE(QP, Q, LEFT, RIGHT)` moves its
head onto the Redis tail of the main queue. -/
def drainLoop : List String → List String → List String
  | q, [] => q
  | q, x :: rest => drainLoop (q ++ [x]) rest

structure PopResult where
  state : RedisState
  res : Except String (Option GenericMessageWithId)
deriving Repr

/-- `RedisQueuesController.popNextMessage` (controller.ts lines 37-74).
`decode` models `JSON.parse` (`_unserialize`), `none` where it would throw.
After the drain, `LMOVE(Q, QP, RIGHT, LEFT)` moves the last (oldest)
element of the main queue into the processing list; only then is the raw
string decoded, so a decode failure leaves the message parked in the
processing list. -/
def popNextMessage (ctx : ProcCtx) (decode : String → Option GenericMessage)
    (st : RedisState) (queueId : String) : PopResult :=
  let queueListName := ctx.ns ++ "-Q-" ++ queueId
  let processingListName := ctx.ns ++ "-QP-" ++ queueId
  let drained := drainLoop (lGet st.lists queueListName) (lGet st.lists processingListName)
  match drained.getLast? with
  | none =>
      { state := { st with lists := lSet (lSet st.lists queueListName drained) processingListName [] }
        res := Except.ok none }
  | some next =>
      let st2 : RedisState :=
        { st with lists := lSet (lSet st.lists queueListName drained.dropLast) processingListName [next] }
      match decode next with
      | some m => { state := st2, res := Except.ok (some { id := next, message := m }) }
      | none => { state := st2, res := Except.error ("Unserialize error: " ++ next) }

/-- `LREM key 1 value`: remove the first occurrence scanning from the Redis
LEFT end; returns the new list and the removed count. -/
def lremOne : List String → String → List String × Nat
  | [], _ => ([], 0)
  | x :: rest, v =>
      if x == v then (rest, 1)
      else
        let r := lremOne rest v
        (x :: r.fst, r.snd)

structure ConfirmResult where
  state : RedisState
  removed : Nat
  error : Option String
deriving Repr

/-- `RedisQueuesController.confirmMessageById` (controller.ts lines 76-85):
`LREM(<ns>-QP-<qid>, 1, messageId)`, then throw unless exactly one element
was removed (the `LREM` itself has already taken effect). -/
def confirmMessageById (ctx : ProcCtx) (st : RedisState) (queueId messageId : String) :
    ConfirmResult :=
  let processingListName := ctx.ns ++ "-QP-" ++ queueId
  let r := lremOne (lGet st.lists processingListName) messageId
  { state := { st with lists := lSet st.lists processingListName r.fst }
    removed := r.snd
    error := if r.snd = 1 then none else some ("Could not confirm message: " ++ messageId) }

/-! ### Storage processor (`src/storage/processor.ts`) -/

/-- Outcome of one `processRedisStorageMessage` call: the final keyspace,
the backend commands issued in execution order, and the first uncaught
exception (if any; commands already issued keep their effect). -/
structure PResult where
  state : RedisState
  trace : List RedisOp
  error : Option String

/-- State-write protocol tail (processor.ts lines 254-276): after the next
version and old state have been determined, write or delete the record,
then compute the diff and publish it.  `now` models
`(new Date()).toISOString()`. -/
def writeStep (ctx : ProcCtx) (now : String) (st : RedisState) (key chan : String)
    (value : JVal) (nextVersion : Int) (oldState : JVal) :
    RedisState × List RedisOp × Option String :=
  let write :=
    if jsonStringify value = "\x7b\x7d" then
      ({ st with kv := kvDel st.kv key }, RedisOp.delOp key)
    else
      let newStateVersion : SV := { version := nextVersion, writtenAt := now, value := value }
      let s := ctx.S.ser (svToJVal newStateVersion)
      ({ st with kv := kvSet st.kv key s }, RedisOp.setOp key s)
  let deltaPayload := ctx.calcDiff oldState value
  let diffMsg : DiffMsg :=
    { fromVersion := nextVersion - 1, toVersion := nextVersion
      writtenAt := now, deltaPayload := deltaPayload }
  (write.fst, [write.snd, RedisOp.publishOp chan (ctx.S.ser (diffToJVal diffMsg))], none)

/-- `WRITE_STATE_OBJECT` branch (processor.ts lines 238-276): decode the
incoming value, read and decode the current record to obtain
`nextVersion`/`oldState`, then run the write-and-publish tail. -/
def processWriteStateObject (ctx : ProcCtx) (now : String) (st : RedisState)
    (msg : GenericMessageWithId) : RedisState × List RedisOp × Option String :=
  let key := ctx.ns ++ "-STATE-" ++ msg.message.meta.key
  let deltaUpdatesChannelId := ctx.ns ++ "-STATE-" ++ msg.message.meta.key ++ "-DELTA"
  match ctx.S.unser msg.message.meta.value with
  | none => (st, [], some "unserialize error")
  | some value =>
      match kvGet st.kv key with
      | none => writeStep ctx now st key deltaUpdatesChannelId value 1 (JVal.obj [])
      | some currentStr =>
          match readSV ctx.S currentStr with
          | none => (st, [], some "state record decode error")
          | some current =>
              writeStep ctx now st key deltaUpdatesChannelId value
                (current.version + 1) current.value

/-- `RedisStorageProcessor.processRedisStorageMessage` (processor.ts lines
227-300): dispatch on the message type exactly as the if/else chain does,
then confirm the message on the incoming queue.  A thrown error skips the
confirm; a confirm whose `LREM` did not remove exactly one element throws
after the `LREM` took effect. -/
def processRedisStorageMessage (ctx : ProcCtx) (now : String) (st : RedisState)
    (msg : GenericMessageWithId) : PResult :=
  let applied : RedisState × List RedisOp × Option String :=
    if msg.message.type = "WRITE_SIMPLE_VALUE" then
      let key := ctx.ns ++ "-VAL-" ++ msg.message.meta.key
      ({ st with kv := kvSet st.kv key msg.message.meta.value },
       [RedisOp.setOp key msg.message.meta.value], none)
    else if msg.message.type = "WRITE_STATE_OBJECT" then
      processWriteStateObject ctx now st msg
    else if msg.message.type = "WRITE_HASHMAP_VALUE" then
      let key := ctx.ns ++ "-MAP-" ++ msg.message.meta.key
      ({ st with hashes := hSet st.hashes key msg.message.meta.fieldName msg.message.meta.value },
       [RedisOp.hmsetOp key msg.message.meta.fieldName msg.message.meta.value], none)
    else if msg.message.type = "ADD_STRINGS_TO_SET" then
      let key := ctx.ns ++ "-SET-" ++ msg.message.meta.key
      ({ st with sets := sAdd st.sets key msg.message.meta.values },
       [RedisOp.saddOp key msg.message.meta.values], none)
    else if msg.message.type = "REMOVE_STRINGS_FROM_SET" then
      let key := ctx.ns ++ "-SET-" ++ msg.message.meta.key
      ({ st with sets := sRem st.sets key msg.message.meta.values },
       [RedisOp.sremOp key msg.message.meta.values], none)
    else
      (st, [], none)
  match applied with
  | (st1, tr, some e) => { state := st1, trace := tr, error := some e }
  | (st1, tr, none) =>
      let c := confirmMessageById ctx st1 ctx.incomingQueueId msg.id
      { state := c.state
        trace := tr ++ [RedisOp.lremOp (ctx.ns ++ "-QP-" ++ ctx.incomingQueueId) 1 msg.id]
        error := c.error }

/-! ### State reader delta handlers (`src/storage/stateReader.ts`)

The file carries two variants of `RedisStorageStateReader`.  Each installs a
`message` handler over a mutable `currentVersion : null | number`; the
handlers are modelled as pure transitions returning the new `currentVersion`
and whether `deltaCallback` was invoked. -/

/-- Variant 1 handler (stateReader.ts lines 115-128): on a matching
`fromVersion`, advance `currentVersion` to `toVersion` and deliver. -/
def onDeltaMessageV1 (currentVersion : Option Int) (diff : DiffMsg) : Option Int × Bool :=
  if some diff.fromVersion = currentVersion then (some diff.toVersion, true)
  else (currentVersion, false)

/-- Variant 2 handler (stateReader.ts lines 258-265): on a matching
`fromVersion`, deliver but leave `currentVersion` unchanged. -/
def onDeltaMessageV2 (currentVersion : Option Int) (diff : DiffMsg) : Option Int × Bool :=
  if some diff.fromVersion = currentVersion then (currentVersion, true)
  else (currentVersion, false)

/-- Run a delta handler over a sequence of decoded deltas, returning the
final `currentVersion` and the per-delta delivery flags. -/
def runDeltas (handler : Option Int → DiffMsg → Option Int × Bool) :
    Option Int → List DiffMsg → Option Int × List Bool
  | cv, [] => (cv, [])
  | cv, d :: rest =>
      let r := handler cv d
      let rr := runDeltas handler r.fst rest
      (rr.fst, r.snd :: rr.snd)

/-! ### Wait-for-signal machine
(`RedisQueuesController.hangConnectionUntilNextMessageOrCancelled`,
controller.ts lines 87-132)

The promise executor is modelled as a state machine driven by timed events:
the 1000 ms poll interval ticks (reading the mutable `control.isCancelled`
flag), the arrival of a pub/sub message, and a subscribe error.  `finish`
runs at most once: it stops the interval, quits the duplicated connection
and settles the promise from the quit callback, so a settled machine always
has `released = true`. -/

/-- `setInterval` period of the cancellation poll (controller.ts line 98). -/
def pollPeriodMs : Nat := 1000

structure WaitState where
  isFinished : Bool
  released : Bool
  settled : Option (Except String String)
  settledAt : Option Nat
deriving Repr

def initWait : WaitState :=
  { isFinished := false, released := false, settled := none, settledAt := none }

/-- The `finish` closure (controller.ts lines 101-116) at time `t`. -/
def finishWait (s : WaitState) (t : Nat) (r : Except String String) : WaitState :=
  if s.isFinished then s
  else { isFinished := true, released := true, settled := some r, settledAt := some t }

inductive WaitEvent where
  | tick (cancelled : Bool)
  | msgArrived (payload : String)
  | subscribeFailed (e : String)
deriving DecidableEq, Repr

def waitStep (s : WaitState) (t : Nat) (e : WaitEvent) : WaitState :=
  match e with
  | WaitEvent.tick c =>
      if c then finishWait s t (Except.error "Listening cancelled") else s
  | WaitEvent.msgArrived p => finishWait s t (Except.ok p)
  | WaitEvent.subscribeFailed err => finishWait s t (Except.error err)

def waitRun : WaitState → List (Nat × WaitEvent) → WaitState
  | s, [] => s
  | s, te :: rest => waitRun (waitStep s te.fst te.snd) rest

/-- Poll-tick trace for a run in which `control.isCancelled` becomes (and
stays) true at time `tc`: the k-th tick fires at time `pollPeriodMs * k` and
reads the flag at that instant. -/
def cancelTicks (tc n : Nat) : List (Nat × WaitEvent) :=
  (List.range n).map
    (fun i => (pollPeriodMs * (i + 1), WaitEvent.tick (decide (tc ≤ pollPeriodMs * (i + 1)))))

/-- Time of the first poll tick at or after `tc` (the tick that observes the
cancellation flag). -/
def firstCancelTickTime (tc : Nat) : Nat :=
  pollPeriodMs * ((tc + (pollPeriodMs - 1)) / pollPeriodMs)

/-! ### Helper lemmas -/

theorem find?_filter_key {β : Type} (l : List (String × β)) (k k2 : String) (h : k ≠ k2) :
    (l.filter (fun p => !(p.fst == k))).find? (fun p => p.fst == k2)
      = l.find? (fun p => p.fst == k2) := by
  induction l with
  | nil => rfl
  | cons p rest ih =>
      obtain ⟨pk, pv⟩ := p
      by_cases hk : pk = k
      · subst hk
        have h2 : (pk == k2) = false := beq_eq_false_iff_ne.mpr (fun h2 => h (h2 ▸ rfl))
        simp [List.filter_cons, List.find?_cons, h2, ih]
      · have h1 : (pk == k) = false := beq_eq_false_iff_ne.mpr hk
        by_cases hk2 : pk = k2
        · have h2 : (pk == k2) = true := by simp [hk2]
          simp [List.filter_cons, List.find?_cons, h1, h2]
        · have h2 : (pk == k2) = false := beq_eq_false_iff_ne.mpr hk2
          simp [List.filter_cons, List.find?_cons, h1, h2, ih]

theorem find?_filter_self {β : Type} (l : List (String × β)) (k : String) :
    (l.filter (fun p => !(p.fst == k))).find? (fun p => p.fst == k) = none := by
  refine List.find?_eq_none.mpr (fun x hx => ?_)
  have := (List.mem_filter.mp hx).2
  simpa using this

theorem lGet_lSet_self (ls : List (String × List String)) (k : String) (v : List String) :
    lGet (lSet ls k v) k = v := by
  unfold lGet lSet
  rw [List.find?_cons_of_pos _ (by simp)]

theorem lGet_lSet_ne (ls : List (String × List String)) (k k2 : String) (v : List String)
    (h : k ≠ k2) : lGet (lSet ls k v) k2 = lGet ls k2 := by
  unfold lGet lSet
  rw [List.find?_cons_of_neg _ (by simp [h]), find?_filter_key ls k k2 h]

theorem kvGet_kvSet_self (kv : List (String × String)) (k v : String) :
    kvGet (kvSet kv k v) k = some v := by
  unfold kvGet kvSet
  rw [List.find?_cons_of_pos _ (by simp)]

theorem kvGet_kvSet_ne (kv : List (String × String)) (k k2 v : String)
    (h : k ≠ k2) : kvGet (kvSet kv k v) k2 = kvGet kv k2 := by
  unfold kvGet kvSet
  rw [List.find?_cons_of_neg _ (by simp [h]), find?_filter_key kv k k2 h]

theorem kvGet_kvDel_self (kv : List (String × String)) (k : String) :
    kvGet (kvDel kv k) k = none := by
  unfold kvGet kvDel
  rw [find?_filter_self]

theorem drainLoop_eq (qp : List String) : ∀ q, drainLoop q qp = q ++ qp := by
  induction qp with
  | nil => intro q; simp [drainLoop]
  | cons x rest ih => intro q; rw [drainLoop, ih]; simp

theorem lremOne_snd (l : List String) (v : String) :
    (lremOne l v).snd = if v ∈ l then 1 else 0 := by
  induction l with
  | nil => rfl
  | cons x rest ih =>
      by_cases hx : x = v
      · simp [lremOne, hx]
      · have hb : (x == v) = false := beq_eq_false_iff_ne.mpr hx
        simp [lremOne, hb, ih, Ne.symm hx]

theorem qKey_ne_qpKey (ns qid : String) : ns ++ "-Q-" ++ qid ≠ ns ++ "-QP-" ++ qid := by
  intro h
  have hl := congrArg String.length h
  have h3 : ("-Q-" : String).length = 3 := rfl
  have h4 : ("-QP-" : String).length = 4 := rfl
  simp only [String.length_append, h3, h4] at hl
  omega


/-- Shape of `popNextMessage` when the drained queue is non-empty and the
raw string decodes. -/
theorem popNextMessage_ok_some (ctx : ProcCtx) (decode : String → Option GenericMessage)
    (st : RedisState) (queueId next : String) (m : GenericMessage)
    (hl : (drainLoop (lGet st.lists (ctx.ns ++ "-Q-" ++ queueId))
        (lGet st.lists (ctx.ns ++ "-QP-" ++ queueId))).getLast? = some next)
    (hd : decode next = some m) :
    (popNextMessage ctx decode st queueId).res = Except.ok (some { id := next, message := m })
      ∧ (popNextMessage ctx decode st queueId).state.lists
        = lSet (lSet st.lists (ctx.ns ++ "-Q-" ++ queueId)
            (drainLoop (lGet st.lists (ctx.ns ++ "-Q-" ++ queueId))
              (lGet st.lists (ctx.ns ++ "-QP-" ++ queueId))).dropLast)
            (ctx.ns ++ "-QP-" ++ queueId) [next] := by
  constructor <;> simp only [popNextMessage, hl, hd]

/-- Shape of `popNextMessage` when the drained queue is non-empty and the
raw string does not decode: the `LMOVE` into the processing list has already
happened when the decode error is raised. -/
theorem popNextMessage_err (ctx : ProcCtx) (decode : String → Option GenericMessage)
    (st : RedisState) (queueId next : String)
    (hl : (drainLoop (lGet st.lists (ctx.ns ++ "-Q-" ++ queueId))
        (lGet st.lists (ctx.ns ++ "-QP-" ++ queueId))).getLast? = some next)
    (hd : decode next = none) :
    (popNextMessage ctx decode st queueId).res = Except.error ("Unserialize error: " ++ next)
      ∧ (popNextMessage ctx decode st queueId).state.lists
        = lSet (lSet st.lists (ctx.ns ++ "-Q-" ++ queueId)
            (drainLoop (lGet st.lists (ctx.ns ++ "-Q-" ++ queueId))
              (lGet st.lists (ctx.ns ++ "-QP-" ++ queueId))).dropLast)
            (ctx.ns ++ "-QP-" ++ queueId) [next] := by
  constructor <;> simp only [popNextMessage, hl, hd]

/-- Inversion: a successful non-null pop returns the last element of the
drained queue as both handle and (decoded) body. -/
theorem popNextMessage_res_ok_inv (ctx : ProcCtx) (decode : String → Option GenericMessage)
    (st : RedisState) (queueId : String) (mw : GenericMessageWithId)
    (hpop : (popNextMessage ctx decode st queueId).res = Except.ok (some mw)) :
    (drainLoop (lGet st.lists (ctx.ns ++ "-Q-" ++ queueId))
        (lGet st.lists (ctx.ns ++ "-QP-" ++ queueId))).getLast? = some mw.id ∧
      decode mw.id = some mw.message := by
  simp only [popNextMessage] at hpop
  split at hpop
  · simp at hpop
  · next next heq =>
      split at hpop
      · next m hd =>
          simp only [Except.ok.injEq, Option.some.injEq] at hpop
          subst hpop
          exact ⟨heq, hd⟩
      · simp at hpop

/-! ### Shared concrete fixtures for witnesses and counterexamples -/

/-- Trivial codec for claims that never decode a stored value. -/
def serTriv : Serializer := { ser := jsonStringify, unser := fun _ => none }

def ctxQ : ProcCtx :=
  { ns := "T", incomingQueueId := "Q", S := serTriv, calcDiff := fun a b => JVal.arr [a, b] }

/-- Decoder that accepts every raw string (models `JSON.parse` succeeding). -/
def decodeW : String → Option GenericMessage :=
  fun s => some { type := "X", occurredAt := "t",
                  meta := { key := s, value := "", fieldName := "", values := [] } }

/-! ### Claims about the reliable queue -/

/-- C3: a handle returned by `popNextMessage` can be confirmed exactly once.
`confirmMessageById` performs `LREM(<ns>-QP-<qid>, 1, handle)` and succeeds
iff the removed count equals 1; after `popNextMessage` the processing list
holds exactly the popped handle, so the first confirm removes it (count 1,
success) and a second confirm on the same handle, or on any handle absent
from the processing list, removes nothing and fails with the inconsistency
error. -/
theorem confirm_succeeds_exactly_once
    (ctx : ProcCtx) (decode : String → Option GenericMessage) (st : RedisState)
    (queueId : String) (mw : GenericMessageWithId)
    (hpop : (popNextMessage ctx decode st queueId).res = Except.ok (some mw)) :
    (confirmMessageById ctx (popNextMessage ctx decode st queueId).state queueId mw.id).removed = 1
    ∧ (confirmMessageById ctx (popNextMessage ctx decode st queueId).state queueId mw.id).error
        = none
    ∧ (confirmMessageById ctx
        (confirmMessageById ctx (popNextMessage ctx decode st queueId).state queueId mw.id).state
        queueId mw.id).removed = 0
    ∧ (confirmMessageById ctx
        (confirmMessageById ctx (popNextMessage ctx decode st queueId).state queueId mw.id).state
        queueId mw.id).error = some ("Could not confirm message: " ++ mw.id)
    ∧ (∀ st2 : RedisState,
        (confirmMessageById ctx st2 queueId mw.id).error = none ↔
          (lremOne (lGet st2.lists (ctx.ns ++ "-QP-" ++ queueId)) mw.id).snd = 1) := by
  obtain ⟨hl, hd⟩ := popNextMessage_res_ok_inv ctx decode st queueId mw hpop
  obtain ⟨-, hlists⟩ := popNextMessage_ok_some ctx decode st queueId mw.id mw.message hl hd
  have hqp : lGet (popNextMessage ctx decode st queueId).state.lists
      (ctx.ns ++ "-QP-" ++ queueId) = [mw.id] := by
    rw [hlists, lGet_lSet_self]
  refine ⟨?_, ?_, ?_, ?_, ?_⟩
  · unfold confirmMessageById
    simp [hqp, lremOne]
  · unfold confirmMessageById
    simp [hqp, lremOne]
  · unfold confirmMessageById
    simp [hqp, lremOne, lGet_lSet_self]
  · unfold confirmMessageById
    simp [hqp, lremOne, lGet_lSet_self]
  · intro st2
    unfold confirmMessageById
    by_cases h : (lremOne (lGet st2.lists (ctx.ns ++ "-QP-" ++ queueId)) mw.id).snd = 1 <;>
      simp [h]

def stQ3 : RedisState :=
  { kv := [], lists := [("T-Q-Q", ["m2", "m1"])], hashes := [], sets := [] }

def mwQ3 : GenericMessageWithId :=
  { id := "m1", message := { type := "X", occurredAt := "t", meta := { key := "m1", value := "", fieldName := "", values := [] } } }

theorem confirm_succeeds_exactly_once_witness :
    (confirmMessageById ctxQ (popNextMessage ctxQ decodeW stQ3 "Q").state "Q" "m1").removed = 1
    ∧ (confirmMessageById ctxQ (popNextMessage ctxQ decodeW stQ3 "Q").state "Q" "m1").error
        = none
    ∧ (confirmMessageById ctxQ
        (confirmMessageById ctxQ (popNextMessage ctxQ decodeW stQ3 "Q").state "Q" "m1").state
        "Q" "m1").removed = 0
    ∧ (confirmMessageById ctxQ
        (confirmMessageById ctxQ (popNextMessage ctxQ decodeW stQ3 "Q").state "Q" "m1").state
        "Q" "m1").error = some ("Could not confirm message: " ++ "m1")
    ∧ (∀ st2 : RedisState,
        (confirmMessageById ctxQ st2 "Q" "m1").error = none ↔
          (lremOne (lGet st2.lists (ctxQ.ns ++ "-QP-" ++ "Q")) "m1").snd = 1) :=
  confirm_succeeds_exactly_once ctxQ decodeW stQ3 "Q" mwQ3 (by rfl)

/-- C4 (amended): when `popNextMessage` runs with N messages left in the
processing list, it first moves all N back into the main queue in order,
appended at the Redis tail (`LMOVE(QP, Q, LEFT, RIGHT)`) — which is the
consumption end, since the subsequent pop is `LMOVE(Q, QP, RIGHT, LEFT)`.
Recovered messages are therefore reprocessed BEFORE currently-queued work:
the pop that follows the drain returns the last recovered message (the
oldest in-flight one), while everything previously in the main queue stays
queued behind it. -/
theorem popNext_recovers_processing_first
    (ctx : ProcCtx) (decode : String → Option GenericMessage) (st : RedisState)
    (queueId lastMsg : String) (qpInit : List String) (m : GenericMessage)
    (hqp : lGet st.lists (ctx.ns ++ "-QP-" ++ queueId) = qpInit ++ [lastMsg])
    (hdec : decode lastMsg = some m) :
    drainLoop (lGet st.lists (ctx.ns ++ "-Q-" ++ queueId))
        (lGet st.lists (ctx.ns ++ "-QP-" ++ queueId))
      = lGet st.lists (ctx.ns ++ "-Q-" ++ queueId) ++ (qpInit ++ [lastMsg])
    ∧ (popNextMessage ctx decode st queueId).res
        = Except.ok (some { id := lastMsg, message := m })
    ∧ lGet (popNextMessage ctx decode st queueId).state.lists
        (ctx.ns ++ "-QP-" ++ queueId) = [lastMsg]
    ∧ lGet (popNextMessage ctx decode st queueId).state.lists
        (ctx.ns ++ "-Q-" ++ queueId)
      = lGet st.lists (ctx.ns ++ "-Q-" ++ queueId) ++ qpInit := by
  have hdrain : drainLoop (lGet st.lists (ctx.ns ++ "-Q-" ++ queueId))
      (lGet st.lists (ctx.ns ++ "-QP-" ++ queueId))
      = lGet st.lists (ctx.ns ++ "-Q-" ++ queueId) ++ (qpInit ++ [lastMsg]) := by
    rw [hqp, drainLoop_eq]
  have hlast : (drainLoop (lGet st.lists (ctx.ns ++ "-Q-" ++ queueId))
      (lGet st.lists (ctx.ns ++ "-QP-" ++ queueId))).getLast? = some lastMsg := by
    rw [hdrain, ← List.append_assoc]
    exact List.getLast?_concat _
  obtain ⟨hres, hlists⟩ := popNextMessage_ok_some ctx decode st queueId lastMsg m hlast hdec
  have hdrop : (drainLoop (lGet st.lists (ctx.ns ++ "-Q-" ++ queueId))
      (lGet st.lists (ctx.ns ++ "-QP-" ++ queueId))).dropLast
      = lGet st.lists (ctx.ns ++ "-Q-" ++ queueId) ++ qpInit := by
    rw [hdrain, ← List.append_assoc]
    exact List.dropLast_concat
  refine ⟨hdrain, hres, ?_, ?_⟩
  · rw [hlists, lGet_lSet_self]
  · rw [hlists, lGet_lSet_ne _ _ _ _ (fun h => qKey_ne_qpKey ctx.ns queueId h.symm),
      lGet_lSet_self, hdrop]

def stC4 : RedisState :=
  { kv := [], lists := [("T-Q-Q", ["m2"]), ("T-QP-Q", ["m1"])], hashes := [], sets := [] }

def stQ4 : RedisState :=
  { kv := [], lists := [("T-Q-Q", ["m3", "m2"]), ("T-QP-Q", ["m1"])], hashes := [], sets := [] }

theorem popNext_recovers_processing_first_witness :
    drainLoop (lGet stQ4.lists (ctxQ.ns ++ "-Q-" ++ "Q"))
        (lGet stQ4.lists (ctxQ.ns ++ "-QP-" ++ "Q"))
      = lGet stQ4.lists (ctxQ.ns ++ "-Q-" ++ "Q") ++ ([] ++ ["m1"])
    ∧ (popNextMessage ctxQ decodeW stQ4 "Q").res
        = Except.ok (some { id := "m1", message := mwQ3.message })
    ∧ lGet (popNextMessage ctxQ decodeW stQ4 "Q").state.lists
        (ctxQ.ns ++ "-QP-" ++ "Q") = ["m1"]
    ∧ lGet (popNextMessage ctxQ decodeW stQ4 "Q").state.lists
        (ctxQ.ns ++ "-Q-" ++ "Q")
      = lGet stQ4.lists (ctxQ.ns ++ "-Q-" ++ "Q") ++ [] :=
  popNext_recovers_processing_first ctxQ decodeW stQ4 "Q" "m1" [] mwQ3.message rfl rfl

/-- C4 as stated is refuted: with one recovered message `m1` in the
processing list and one currently-queued message `m2` in the main queue,
the pop immediately following the drain returns the recovered `m1` — which
is not an element of the main queue — while `m2` remains queued, so
recovered messages are reprocessed BEFORE, not after, currently-queued
work. -/
theorem popNext_counterexample_recovered_not_after :
    lGet stC4.lists "T-Q-Q" = ["m2"]
    ∧ lGet stC4.lists "T-QP-Q" = ["m1"]
    ∧ (popNextMessage ctxQ decodeW stC4 "Q").res
        = Except.ok (some { id := "m1", message := { type := "X", occurredAt := "t", meta := { key := "m1", value := "", fieldName := "", values := [] } } })
    ∧ "m1" ∉ lGet stC4.lists "T-Q-Q"
    ∧ "m2" ∈ lGet (popNextMessage ctxQ decodeW stC4 "Q").state.lists "T-Q-Q" := by
  refine ⟨rfl, rfl, rfl, by decide, by decide⟩

/-- C9: if the raw string popped by `popNextMessage` does not decode, the
error is raised only after the `LMOVE` into the processing list has
completed: the call returns the decode error while the undecodable string
sits alone in the processing list, and the drain step of the next
`popNextMessage` call moves it back onto the main queue
(`drainLoop` appends it at the queue tail). -/
theorem popNext_decode_error_not_lost
    (ctx : ProcCtx) (decode : String → Option GenericMessage) (st : RedisState)
    (queueId x : String)
    (hlast : (drainLoop (lGet st.lists (ctx.ns ++ "-Q-" ++ queueId))
        (lGet st.lists (ctx.ns ++ "-QP-" ++ queueId))).getLast? = some x)
    (hdec : decode x = none) :
    (popNextMessage ctx decode st queueId).res = Except.error ("Unserialize error: " ++ x)
    ∧ lGet (popNextMessage ctx decode st queueId).state.lists
        (ctx.ns ++ "-QP-" ++ queueId) = [x]
    ∧ drainLoop (lGet (popNextMessage ctx decode st queueId).state.lists
          (ctx.ns ++ "-Q-" ++ queueId))
        (lGet (popNextMessage ctx decode st queueId).state.lists
          (ctx.ns ++ "-QP-" ++ queueId))
      = lGet (popNextMessage ctx decode st queueId).state.lists
          (ctx.ns ++ "-Q-" ++ queueId) ++ [x] := by
  obtain ⟨hres, hlists⟩ := popNextMessage_err ctx decode st queueId x hlast hdec
  have hqp : lGet (popNextMessage ctx decode st queueId).state.lists
      (ctx.ns ++ "-QP-" ++ queueId) = [x] := by
    rw [hlists, lGet_lSet_self]
  exact ⟨hres, hqp, by rw [hqp, drainLoop_eq]⟩

/-- Decoder that rejects every raw string (models `JSON.parse` throwing). -/
def decodeFail : String → Option GenericMessage := fun _ => none

theorem popNext_decode_error_not_lost_witness :
    (popNextMessage ctxQ decodeFail stQ3 "Q").res = Except.error ("Unserialize error: " ++ "m1")
    ∧ lGet (popNextMessage ctxQ decodeFail stQ3 "Q").state.lists
        (ctxQ.ns ++ "-QP-" ++ "Q") = ["m1"]
    ∧ drainLoop (lGet (popNextMessage ctxQ decodeFail stQ3 "Q").state.lists
          (ctxQ.ns ++ "-Q-" ++ "Q"))
        (lGet (popNextMessage ctxQ decodeFail stQ3 "Q").state.lists
          (ctxQ.ns ++ "-QP-" ++ "Q"))
      = lGet (popNextMessage ctxQ decodeFail stQ3 "Q").state.lists
          (ctxQ.ns ++ "-Q-" ++ "Q") ++ ["m1"] :=
  popNext_decode_error_not_lost ctxQ decodeFail stQ3 "Q" "m1" rfl rfl

/-! ### Claims about the storage processor -/

def stateKeyOf (ctx : ProcCtx) (key : String) : String := ctx.ns ++ "-STATE-" ++ key

def qpKeyOf (ctx : ProcCtx) : String := ctx.ns ++ "-QP-" ++ ctx.incomingQueueId

/-- The version the processor will assign next and the old state it diffs
against (processor.ts lines 244-252): absent record means version 1 and old
state the empty object; otherwise the decoded record's version + 1 and its
value. -/
def currentStateIs (ctx : ProcCtx) (st : RedisState) (key : String) (n : Int) (old : JVal) :
    Prop :=
  (kvGet st.kv (stateKeyOf ctx key) = none ∧ n = 1 ∧ old = JVal.obj []) ∨
  (∃ s cur, kvGet st.kv (stateKeyOf ctx key) = some s ∧ readSV ctx.S s = some cur ∧
    n = cur.version + 1 ∧ old = cur.value)

/-- Full shape of one `WRITE_STATE_OBJECT` application: write (or delete),
then publish, then confirm — with every projection of the result made
explicit. -/
theorem processWriteStateObject_shape
    (ctx : ProcCtx) (now : String) (st : RedisState) (msg : GenericMessageWithId)
    (v old : JVal) (n : Int)
    (htype : msg.message.type = "WRITE_STATE_OBJECT")
    (hval : ctx.S.unser msg.message.meta.value = some v)
    (hcur : currentStateIs ctx st msg.message.meta.key n old) :
    (processRedisStorageMessage ctx now st msg).trace
      = [(if jsonStringify v = "\x7b\x7d" then RedisOp.delOp (stateKeyOf ctx msg.message.meta.key)
          else RedisOp.setOp (stateKeyOf ctx msg.message.meta.key)
            (ctx.S.ser (svToJVal { version := n, writtenAt := now, value := v }))),
         RedisOp.publishOp (stateKeyOf ctx msg.message.meta.key ++ "-DELTA")
           (ctx.S.ser (diffToJVal { fromVersion := n - 1, toVersion := n, writtenAt := now,
                                    deltaPayload := ctx.calcDiff old v })),
         RedisOp.lremOp (qpKeyOf ctx) 1 msg.id]
    ∧ (processRedisStorageMessage ctx now st msg).state.kv
      = (if jsonStringify v = "\x7b\x7d" then kvDel st.kv (stateKeyOf ctx msg.message.meta.key)
         else kvSet st.kv (stateKeyOf ctx msg.message.meta.key)
           (ctx.S.ser (svToJVal { version := n, writtenAt := now, value := v })))
    ∧ (processRedisStorageMessage ctx now st msg).state.lists
      = lSet st.lists (qpKeyOf ctx) (lremOne (lGet st.lists (qpKeyOf ctx)) msg.id).fst
    ∧ (processRedisStorageMessage ctx now st msg).state.hashes = st.hashes
    ∧ (processRedisStorageMessage ctx now st msg).state.sets = st.sets
    ∧ (processRedisStorageMessage ctx now st msg).error
      = (if (lremOne (lGet st.lists (qpKeyOf ctx)) msg.id).snd = 1 then none
         else some ("Could not confirm message: " ++ msg.id)) := by
  have t1 : ¬(("WRITE_STATE_OBJECT" : String) = "WRITE_SIMPLE_VALUE") := by decide
  have hobj : processWriteStateObject ctx now st msg
      = writeStep ctx now st (stateKeyOf ctx msg.message.meta.key)
          (stateKeyOf ctx msg.message.meta.key ++ "-DELTA") v n old := by
    rcases hcur with ⟨habs, hn, hold⟩ | ⟨s, cur, hs, hr, hn, hold⟩
    · subst hn; subst hold
      simp only [stateKeyOf] at habs
      simp only [processWriteStateObject, hval, habs, stateKeyOf]
    · subst hn; subst hold
      simp only [stateKeyOf] at hs
      simp only [processWriteStateObject, hval, hs, hr, stateKeyOf]
  simp only [processRedisStorageMessage, htype, if_neg t1, if_pos rfl, hobj, writeStep,
    confirmMessageById, qpKeyOf]
  by_cases hc : jsonStringify v = "\x7b\x7d" <;>
    simp [hc]

/-- C1: every successful `WRITE_STATE_OBJECT` application whose value is
not the empty object stores a record whose version is exactly one more than
the current one — version 1 when no record exists, current version + 1
otherwise (`currentStateIs` is precisely that dichotomy) — so readers
observe the gapless sequence 1, 2, 3, … between deletion resets. -/
theorem writeStateObject_increments_version
    (ctx : ProcCtx) (now : String) (st : RedisState) (msg : GenericMessageWithId)
    (v old : JVal) (n : Int)
    (htype : msg.message.type = "WRITE_STATE_OBJECT")
    (hval : ctx.S.unser msg.message.meta.value = some v)
    (hne : jsonStringify v ≠ "\x7b\x7d")
    (hcur : currentStateIs ctx st msg.message.meta.key n old) :
    kvGet (processRedisStorageMessage ctx now st msg).state.kv
        (stateKeyOf ctx msg.message.meta.key)
      = some (ctx.S.ser (svToJVal { version := n, writtenAt := now, value := v }))
    ∧ (msg.id ∈ lGet st.lists (qpKeyOf ctx) →
        (processRedisStorageMessage ctx now st msg).error = none) := by
  obtain ⟨-, hkv, -, -, -, herr⟩ :=
    processWriteStateObject_shape ctx now st msg v old n htype hval hcur
  rw [if_neg hne] at hkv
  refine ⟨?_, ?_⟩
  · rw [hkv, kvGet_kvSet_self]
  · intro hmem
    rw [herr, lremOne_snd, if_pos hmem, if_pos rfl]

/-! Concrete fixtures exercising the state-write protocol, decoded through a
finite-table codec (lawful on the values it contains). -/

def vW : JVal := JVal.obj [("a", JVal.num 1)]

def curW : SV := { version := 1, writtenAt := "t0", value := JVal.obj [("a", JVal.num 0)] }

def tblW : List JVal := [vW, svToJVal curW, JVal.obj []]

def serW : Serializer :=
  { ser := jsonStringify, unser := fun s => tblW.find? (fun v => jsonStringify v == s) }

def ctxW : ProcCtx :=
  { ns := "T", incomingQueueId := "Q", S := serW, calcDiff := fun a b => JVal.arr [a, b] }

def msgW : GenericMessageWithId :=
  { id := "h1", message := { type := "WRITE_STATE_OBJECT", occurredAt := "t1", meta := { key := "K", value := jsonStringify vW, fieldName := "", values := [] } } }

def stW : RedisState :=
  { kv := [("T-STATE-K", jsonStringify (svToJVal curW))], lists := [("T-QP-Q", ["h1"])], hashes := [], sets := [] }

theorem writeStateObject_increments_version_witness :
    kvGet (processRedisStorageMessage ctxW "t1" stW msgW).state.kv
        (stateKeyOf ctxW "K")
      = some (ctxW.S.ser (svToJVal { version := 2, writtenAt := "t1", value := vW }))
    ∧ ("h1" ∈ lGet stW.lists (qpKeyOf ctxW) →
        (processRedisStorageMessage ctxW "t1" stW msgW).error = none) :=
  writeStateObject_increments_version ctxW "t1" stW msgW vW curW.value 2 rfl rfl (by decide)
    (Or.inr ⟨jsonStringify (svToJVal curW), curW, rfl, rfl, by decide, rfl⟩)

/-- C6: every successful `WRITE_STATE_OBJECT` application publishes exactly
one `DiffMessage` on `<ns>-STATE-<key>-DELTA`, with
`toVersion = fromVersion + 1 = n` (the version of the new record stored by
the write op); and in the trace of awaited backend commands the publish
comes strictly after the `SET` of the new record (or the `DEL` of the key),
never before it. -/
theorem writeStateObject_publishes_once_after_write
    (ctx : ProcCtx) (now : String) (st : RedisState) (msg : GenericMessageWithId)
    (v old : JVal) (n : Int)
    (htype : msg.message.type = "WRITE_STATE_OBJECT")
    (hval : ctx.S.unser msg.message.meta.value = some v)
    (hcur : currentStateIs ctx st msg.message.meta.key n old) :
    ∃ wop,
      (processRedisStorageMessage ctx now st msg).trace
        = [wop,
           RedisOp.publishOp (stateKeyOf ctx msg.message.meta.key ++ "-DELTA")
             (ctx.S.ser (diffToJVal { fromVersion := n - 1, toVersion := n, writtenAt := now,
                                      deltaPayload := ctx.calcDiff old v })),
           RedisOp.lremOp (qpKeyOf ctx) 1 msg.id]
      ∧ (wop = RedisOp.setOp (stateKeyOf ctx msg.message.meta.key)
            (ctx.S.ser (svToJVal { version := n, writtenAt := now, value := v }))
          ∨ wop = RedisOp.delOp (stateKeyOf ctx msg.message.meta.key))
      ∧ (∀ ch p, wop ≠ RedisOp.publishOp ch p)
      ∧ (msg.id ∈ lGet st.lists (qpKeyOf ctx) →
          (processRedisStorageMessage ctx now st msg).error = none) := by
  obtain ⟨htrace, -, -, -, -, herr⟩ :=
    processWriteStateObject_shape ctx now st msg v old n htype hval hcur
  have herr2 : msg.id ∈ lGet st.lists (qpKeyOf ctx) →
      (processRedisStorageMessage ctx now st msg).error = none := by
    intro hmem
    rw [herr, lremOne_snd, if_pos hmem, if_pos rfl]
  by_cases hc : jsonStringify v = "\x7b\x7d"
  · rw [if_pos hc] at htrace
    exact ⟨_, htrace, Or.inr rfl, fun ch p => by simp, herr2⟩
  · rw [if_neg hc] at htrace
    exact ⟨_, htrace, Or.inl rfl, fun ch p => by simp, herr2⟩

theorem writeStateObject_publishes_once_after_write_witness :
    ∃ wop,
      (processRedisStorageMessage ctxW "t1" stW msgW).trace
        = [wop,
           RedisOp.publishOp (stateKeyOf ctxW "K" ++ "-DELTA")
             (ctxW.S.ser (diffToJVal { fromVersion := 2 - 1, toVersion := 2, writtenAt := "t1",
                                       deltaPayload := ctxW.calcDiff curW.value vW })),
           RedisOp.lremOp (qpKeyOf ctxW) 1 "h1"]
      ∧ (wop = RedisOp.setOp (stateKeyOf ctxW "K")
            (ctxW.S.ser (svToJVal { version := 2, writtenAt := "t1", value := vW }))
          ∨ wop = RedisOp.delOp (stateKeyOf ctxW "K"))
      ∧ (∀ ch p, wop ≠ RedisOp.publishOp ch p)
      ∧ ("h1" ∈ lGet stW.lists (qpKeyOf ctxW) →
          (processRedisStorageMessage ctxW "t1" stW msgW).error = none) :=
  writeStateObject_publishes_once_after_write ctxW "t1" stW msgW vW curW.value 2 rfl rfl
    (Or.inr ⟨jsonStringify (svToJVal curW), curW, rfl, rfl, by decide, rfl⟩)

/-- C2: applying a `WRITE_STATE_OBJECT` whose decoded value stringifies to
the empty object deletes `<ns>-STATE-<key>` (no `StateVersion` remains),
still publishes a `DiffMessage` with `fromVersion` the deleted record's
version and `toVersion` that version + 1, and the next `WRITE_STATE_OBJECT`
on the same key stores a `StateVersion` with version 1 again. -/
theorem writeStateObject_empty_deletes_and_resets
    (ctx : ProcCtx) (now1 now2 : String) (st : RedisState)
    (msg1 msg2 : GenericMessageWithId) (v1 v2 : JVal) (s : String) (cur : SV)
    (htype1 : msg1.message.type = "WRITE_STATE_OBJECT")
    (hval1 : ctx.S.unser msg1.message.meta.value = some v1)
    (hempty : jsonStringify v1 = "\x7b\x7d")
    (hs : kvGet st.kv (stateKeyOf ctx msg1.message.meta.key) = some s)
    (hr : readSV ctx.S s = some cur)
    (htype2 : msg2.message.type = "WRITE_STATE_OBJECT")
    (hkey : msg2.message.meta.key = msg1.message.meta.key)
    (hval2 : ctx.S.unser msg2.message.meta.value = some v2)
    (hne2 : jsonStringify v2 ≠ "\x7b\x7d") :
    kvGet (processRedisStorageMessage ctx now1 st msg1).state.kv
        (stateKeyOf ctx msg1.message.meta.key) = none
    ∧ (processRedisStorageMessage ctx now1 st msg1).trace
        = [RedisOp.delOp (stateKeyOf ctx msg1.message.meta.key),
           RedisOp.publishOp (stateKeyOf ctx msg1.message.meta.key ++ "-DELTA")
             (ctx.S.ser (diffToJVal { fromVersion := cur.version, toVersion := cur.version + 1,
                                      writtenAt := now1,
                                      deltaPayload := ctx.calcDiff cur.value v1 })),
           RedisOp.lremOp (qpKeyOf ctx) 1 msg1.id]
    ∧ kvGet (processRedisStorageMessage ctx now2
            (processRedisStorageMessage ctx now1 st msg1).state msg2).state.kv
          (stateKeyOf ctx msg1.message.meta.key)
      = some (ctx.S.ser (svToJVal { version := 1, writtenAt := now2, value := v2 })) := by
  obtain ⟨htrace1, hkv1, -, -, -, -⟩ :=
    processWriteStateObject_shape ctx now1 st msg1 v1 cur.value (cur.version + 1) htype1 hval1
      (Or.inr ⟨s, cur, hs, hr, rfl, rfl⟩)
  rw [if_pos hempty] at htrace1 hkv1
  have hdel : kvGet (processRedisStorageMessage ctx now1 st msg1).state.kv
      (stateKeyOf ctx msg1.message.meta.key) = none := by
    rw [hkv1, kvGet_kvDel_self]
  refine ⟨hdel, ?_, ?_⟩
  · rw [htrace1]
    simp [Int.add_sub_cancel]
  · obtain ⟨-, hkv2, -, -, -, -⟩ :=
      processWriteStateObject_shape ctx now2 (processRedisStorageMessage ctx now1 st msg1).state
        msg2 v2 (JVal.obj []) 1 htype2 hval2 (Or.inl ⟨by rw [hkey]; exact hdel, rfl, rfl⟩)
    rw [if_neg hne2] at hkv2
    rw [hkey] at hkv2
    rw [hkv2, kvGet_kvSet_self]

def msgE1 : GenericMessageWithId :=
  { id := "h1", message := { type := "WRITE_STATE_OBJECT", occurredAt := "t1", meta := { key := "K", value := jsonStringify (JVal.obj []), fieldName := "", values := [] } } }

def msgE2 : GenericMessageWithId :=
  { id := "h2", message := { type := "WRITE_STATE_OBJECT", occurredAt := "t2", meta := { key := "K", value := jsonStringify vW, fieldName := "", values := [] } } }

theorem writeStateObject_empty_deletes_and_resets_witness :
    kvGet (processRedisStorageMessage ctxW "t1" stW msgE1).state.kv
        (stateKeyOf ctxW "K") = none
    ∧ (processRedisStorageMessage ctxW "t1" stW msgE1).trace
        = [RedisOp.delOp (stateKeyOf ctxW "K"),
           RedisOp.publishOp (stateKeyOf ctxW "K" ++ "-DELTA")
             (ctxW.S.ser (diffToJVal { fromVersion := curW.version, toVersion := curW.version + 1,
                                       writtenAt := "t1",
                                       deltaPayload := ctxW.calcDiff curW.value (JVal.obj []) })),
           RedisOp.lremOp (qpKeyOf ctxW) 1 "h1"]
    ∧ kvGet (processRedisStorageMessage ctxW "t2"
            (processRedisStorageMessage ctxW "t1" stW msgE1).state msgE2).state.kv
          (stateKeyOf ctxW "K")
      = some (ctxW.S.ser (svToJVal { version := 1, writtenAt := "t2", value := vW })) :=
  writeStateObject_empty_deletes_and_resets ctxW "t1" "t2" stW msgE1 msgE2 (JVal.obj []) vW
    (jsonStringify (svToJVal curW)) curW rfl rfl (by decide) rfl rfl rfl rfl rfl (by decide)

/-- C10: applying `WRITE_STATE_OBJECT` with decoded value the empty object
on a key with no existing record issues a `DEL` on the absent key (leaving
it absent, and never creating a `StateVersion`), and still publishes a
`DiffMessage` with `fromVersion` 0 and `toVersion` 1 whose `deltaPayload`
is the structural diff from the empty object to the empty object. -/
theorem writeStateObject_empty_absent_key
    (ctx : ProcCtx) (now : String) (st : RedisState) (msg : GenericMessageWithId)
    (htype : msg.message.type = "WRITE_STATE_OBJECT")
    (hval : ctx.S.unser msg.message.meta.value = some (JVal.obj []))
    (habs : kvGet st.kv (stateKeyOf ctx msg.message.meta.key) = none) :
    kvGet (processRedisStorageMessage ctx now st msg).state.kv
        (stateKeyOf ctx msg.message.meta.key) = none
    ∧ (processRedisStorageMessage ctx now st msg).trace
        = [RedisOp.delOp (stateKeyOf ctx msg.message.meta.key),
           RedisOp.publishOp (stateKeyOf ctx msg.message.meta.key ++ "-DELTA")
             (ctx.S.ser (diffToJVal { fromVersion := 0, toVersion := 1, writtenAt := now,
                                      deltaPayload := ctx.calcDiff (JVal.obj []) (JVal.obj []) })),
           RedisOp.lremOp (qpKeyOf ctx) 1 msg.id] := by
  obtain ⟨htrace, hkv, -, -, -, -⟩ :=
    processWriteStateObject_shape ctx now st msg (JVal.obj []) (JVal.obj []) 1 htype hval
      (Or.inl ⟨habs, rfl, rfl⟩)
  have hc : jsonStringify (JVal.obj []) = "\x7b\x7d" := by decide
  rw [if_pos hc] at htrace hkv
  refine ⟨by rw [hkv, kvGet_kvDel_self], ?_⟩
  rw [htrace]
  norm_num

def stE10 : RedisState :=
  { kv := [], lists := [("T-QP-Q", ["h1"])], hashes := [], sets := [] }

theorem writeStateObject_empty_absent_key_witness :
    kvGet (processRedisStorageMessage ctxW "t1" stE10 msgE1).state.kv
        (stateKeyOf ctxW "K") = none
    ∧ (processRedisStorageMessage ctxW "t1" stE10 msgE1).trace
        = [RedisOp.delOp (stateKeyOf ctxW "K"),
           RedisOp.publishOp (stateKeyOf ctxW "K" ++ "-DELTA")
             (ctxW.S.ser (diffToJVal { fromVersion := 0, toVersion := 1, writtenAt := "t1",
                                       deltaPayload := ctxW.calcDiff (JVal.obj []) (JVal.obj []) })),
           RedisOp.lremOp (qpKeyOf ctxW) 1 "h1"] :=
  writeStateObject_empty_absent_key ctxW "t1" stE10 msgE1 rfl rfl rfl

/-- C8: a message whose type is none of the five recognized mutation types
performs no backend mutation (string keys, hashes, sets and every list
other than the processing list are untouched, and the only command issued
is the confirm's `LREM`), is treated as success, and is confirmed — removed
from the processing list — exactly like a successfully applied message. -/
theorem unknown_type_warn_and_confirm
    (ctx : ProcCtx) (now : String) (st : RedisState) (msg : GenericMessageWithId)
    (h1 : msg.message.type ≠ "WRITE_SIMPLE_VALUE")
    (h2 : msg.message.type ≠ "WRITE_STATE_OBJECT")
    (h3 : msg.message.type ≠ "WRITE_HASHMAP_VALUE")
    (h4 : msg.message.type ≠ "ADD_STRINGS_TO_SET")
    (h5 : msg.message.type ≠ "REMOVE_STRINGS_FROM_SET") :
    (processRedisStorageMessage ctx now st msg).state.kv = st.kv
    ∧ (processRedisStorageMessage ctx now st msg).state.hashes = st.hashes
    ∧ (processRedisStorageMessage ctx now st msg).state.sets = st.sets
    ∧ (processRedisStorageMessage ctx now st msg).state.lists
        = lSet st.lists (qpKeyOf ctx) (lremOne (lGet st.lists (qpKeyOf ctx)) msg.id).fst
    ∧ (∀ k, k ≠ qpKeyOf ctx →
        lGet (processRedisStorageMessage ctx now st msg).state.lists k = lGet st.lists k)
    ∧ (processRedisStorageMessage ctx now st msg).trace
        = [RedisOp.lremOp (qpKeyOf ctx) 1 msg.id]
    ∧ (msg.id ∈ lGet st.lists (qpKeyOf ctx) →
        (processRedisStorageMessage ctx now st msg).error = none) := by
  have hshape : processRedisStorageMessage ctx now st msg
      = { state := (confirmMessageById ctx st ctx.incomingQueueId msg.id).state
          trace := [RedisOp.lremOp (qpKeyOf ctx) 1 msg.id]
          error := (confirmMessageById ctx st ctx.incomingQueueId msg.id).error } := by
    simp only [processRedisStorageMessage, if_neg h1, if_neg h2, if_neg h3, if_neg h4, if_neg h5,
      qpKeyOf]
    rfl
  rw [hshape]
  refine ⟨rfl, rfl, rfl, rfl, ?_, rfl, ?_⟩
  · intro k hk
    show lGet (lSet st.lists (ctx.ns ++ "-QP-" ++ ctx.incomingQueueId)
        (lremOne (lGet st.lists (ctx.ns ++ "-QP-" ++ ctx.incomingQueueId)) msg.id).fst) k
      = lGet st.lists k
    exact lGet_lSet_ne _ _ _ _ (fun h => hk h.symm)
  · intro hmem
    show (if (lremOne (lGet st.lists (ctx.ns ++ "-QP-" ++ ctx.incomingQueueId)) msg.id).snd = 1
        then none else some ("Could not confirm message: " ++ msg.id)) = none
    rw [lremOne_snd]
    have hmem2 : msg.id ∈ lGet st.lists (ctx.ns ++ "-QP-" ++ ctx.incomingQueueId) := hmem
    rw [if_pos hmem2, if_pos rfl]

def msgU : GenericMessageWithId :=
  { id := "h1", message := { type := "SOMETHING_ELSE", occurredAt := "t1", meta := { key := "K", value := "x", fieldName := "", values := [] } } }

theorem unknown_type_warn_and_confirm_witness :
    (processRedisStorageMessage ctxW "t1" stW msgU).state.kv = stW.kv
    ∧ (processRedisStorageMessage ctxW "t1" stW msgU).state.hashes = stW.hashes
    ∧ (processRedisStorageMessage ctxW "t1" stW msgU).state.sets = stW.sets
    ∧ (processRedisStorageMessage ctxW "t1" stW msgU).state.lists
        = lSet stW.lists (qpKeyOf ctxW) (lremOne (lGet stW.lists (qpKeyOf ctxW)) "h1").fst
    ∧ (∀ k, k ≠ qpKeyOf ctxW →
        lGet (processRedisStorageMessage ctxW "t1" stW msgU).state.lists k = lGet stW.lists k)
    ∧ (processRedisStorageMessage ctxW "t1" stW msgU).trace
        = [RedisOp.lremOp (qpKeyOf ctxW) 1 "h1"]
    ∧ ("h1" ∈ lGet stW.lists (qpKeyOf ctxW) →
        (processRedisStorageMessage ctxW "t1" stW msgU).error = none) :=
  unknown_type_warn_and_confirm ctxW "t1" stW msgU (by decide) (by decide) (by decide)
    (by decide) (by decide)

/-! ### Claim about the state-reader delta handlers -/

def diff12 : DiffMsg :=
  { fromVersion := 1, toVersion := 2, writtenAt := "t1", deltaPayload := JVal.null }

def diff23 : DiffMsg :=
  { fromVersion := 2, toVersion := 3, writtenAt := "t2", deltaPayload := JVal.null }

/-- C5: the variant-1 handler behaves as specified — it delivers a delta iff
`fromVersion` equals `currentVersion` and then advances `currentVersion` to
`toVersion`, so the chained deltas 1→2, 2→3 are both delivered from snapshot
version 1.  The variant-2 handler (stateReader.ts lines 258-265) never
advances `currentVersion` after delivering, so the second, chained delta is
discarded: the claim's "currentVersion is updated to diff.toVersion" fails
on that variant of the code. -/
theorem stateReader_variant2_drops_chained_delta :
    runDeltas onDeltaMessageV1 (some 1) [diff12, diff23] = (some 3, [true, true])
    ∧ runDeltas onDeltaMessageV2 (some 1) [diff12, diff23] = (some 1, [true, false]) := by
  constructor <;> rfl

/-! ### Claim about waitForSignal -/

theorem waitRun_append (s : WaitState) (a b : List (Nat × WaitEvent)) :
    waitRun s (a ++ b) = waitRun (waitRun s a) b := by
  induction a generalizing s with
  | nil => rfl
  | cons te rest ih => simp [waitRun, ih]

theorem waitStep_finished (s : WaitState) (h : s.isFinished = true) (t : Nat) (e : WaitEvent) :
    waitStep s t e = s := by
  cases e with
  | tick c => cases c <;> simp [waitStep, finishWait, h]
  | msgArrived p => simp [waitStep, finishWait, h]
  | subscribeFailed err => simp [waitStep, finishWait, h]

theorem cancelTicks_succ (tc n : Nat) :
    cancelTicks tc (n + 1) = cancelTicks tc n
      ++ [(pollPeriodMs * (n + 1), WaitEvent.tick (decide (tc ≤ pollPeriodMs * (n + 1))))] := by
  simp [cancelTicks, List.range_succ]

theorem cancelTicks_no_fire (tc n : Nat) (h : pollPeriodMs * n < tc) :
    waitRun initWait (cancelTicks tc n) = initWait := by
  induction n with
  | zero => rfl
  | succ k ih =>
      have hk : pollPeriodMs * k < tc := by
        simp only [pollPeriodMs] at h ⊢
        omega
      have hflag : (decide (tc ≤ pollPeriodMs * (k + 1))) = false :=
        decide_eq_false (by omega)
      rw [cancelTicks_succ, waitRun_append, ih hk]
      simp [waitRun, waitStep, hflag]

theorem waitRun_cancelTicks (tc n : Nat) (h1 : 1 ≤ tc) (h2 : tc ≤ pollPeriodMs * n) :
    waitRun initWait (cancelTicks tc n)
      = { isFinished := true, released := true,
          settled := some (Except.error "Listening cancelled"),
          settledAt := some (firstCancelTickTime tc) } := by
  induction n with
  | zero =>
      exfalso
      simp only [pollPeriodMs] at h2
      omega
  | succ k ih =>
      by_cases hk : tc ≤ pollPeriodMs * k
      · rw [cancelTicks_succ, waitRun_append, ih hk]
        rw [waitRun, waitStep_finished _ rfl]
        rfl
      · push_neg at hk
        have hflag : (decide (tc ≤ pollPeriodMs * (k + 1))) = true := decide_eq_true h2
        have hfct : firstCancelTickTime tc = pollPeriodMs * (k + 1) := by
          simp only [firstCancelTickTime, pollPeriodMs] at *
          omega
        rw [cancelTicks_succ, waitRun_append, cancelTicks_no_fire tc k hk, hfct]
        simp [waitRun, waitStep, hflag, finishWait, initWait]

theorem finishWait_inv (s : WaitState) (t : Nat) (r : Except String String)
    (h : s.settled.isSome → s.released = true) :
    (finishWait s t r).settled.isSome → (finishWait s t r).released = true := by
  unfold finishWait
  by_cases hf : s.isFinished = true
  · simp only [if_pos hf]
    exact h
  · simp [if_neg hf]

theorem waitStep_inv (s : WaitState) (t : Nat) (e : WaitEvent)
    (h : s.settled.isSome → s.released = true) :
    (waitStep s t e).settled.isSome → (waitStep s t e).released = true := by
  cases e with
  | tick c =>
      cases c
      · simpa [waitStep] using h
      · simpa [waitStep] using finishWait_inv s t _ h
  | msgArrived p => simpa [waitStep] using finishWait_inv s t _ h
  | subscribeFailed err => simpa [waitStep] using finishWait_inv s t _ h

theorem waitRun_settled_released (evs : List (Nat × WaitEvent)) (s : WaitState)
    (h : s.settled.isSome → s.released = true) :
    (waitRun s evs).settled.isSome → (waitRun s evs).released = true := by
  induction evs generalizing s with
  | nil => exact h
  | cons te rest ih => exact ih _ (waitStep_inv s te.fst te.snd h)

/-- C7: the wait machine of `hangConnectionUntilNextMessageOrCancelled`
releases the duplicated connection before it settles on every run — in
particular on the signal-received, subscribe-error and cancellation exits,
which all settle through `finishWait` — and it polls the cancellation flag
with period `pollPeriodMs` = 1000 ms: once `control.isCancelled` is set at
time `tc`, the run over the poll-tick trace settles with the "Listening
cancelled" error, connection released, at the first tick at or after `tc`,
which is strictly less than one poll period after `tc`. -/
theorem waitForSignal_cancellation_and_release
    (evs : List (Nat × WaitEvent)) (tc n : Nat)
    (h1 : 1 ≤ tc) (h2 : tc ≤ pollPeriodMs * n) :
    ((waitRun initWait evs).settled.isSome → (waitRun initWait evs).released = true)
    ∧ waitRun initWait (cancelTicks tc n)
      = { isFinished := true, released := true,
          settled := some (Except.error "Listening cancelled"),
          settledAt := some (firstCancelTickTime tc) }
    ∧ tc ≤ firstCancelTickTime tc
    ∧ firstCancelTickTime tc < tc + pollPeriodMs := by
  refine ⟨waitRun_settled_released evs initWait (by simp [initWait]),
    waitRun_cancelTicks tc n h1 h2, ?_, ?_⟩
  · simp only [firstCancelTickTime, pollPeriodMs]
    omega
  · simp only [firstCancelTickTime, pollPeriodMs]
    omega

theorem waitForSignal_cancellation_and_release_witness :
    ((waitRun initWait [(500, WaitEvent.msgArrived "PUSH")]).settled.isSome →
      (waitRun initWait [(500, WaitEvent.msgArrived "PUSH")]).released = true)
    ∧ waitRun initWait (cancelTicks 1500 2)
      = { isFinished := true, released := true,
          settled := some (Except.error "Listening cancelled"),
          settledAt := some (firstCancelTickTime 1500) }
    ∧ 1500 ≤ firstCancelTickTime 1500
    ∧ firstCancelTickTime 1500 < 1500 + pollPeriodMs :=
  waitForSignal_cancellation_and_release [(500, WaitEvent.msgArrived "PUSH")] 1500 2
    (by decide) (by decide)
